import Mathlib

/-!
# fluxel: the event-driven I/O dispatch engine of `fluxel.c`

A shallow embedding of `fluxel.c`.  The C functions `set_nonblock`,
`setup_sockets`, `handle_accept`, `handle_read`, `event_loop` and `main`
become Lean functions that pass an explicit `State` (the chronological trace
of the calls the program has issued to its environment, and how many results
of each result stream it has consumed) and read the results of those calls
from an environment `Env`.

Conventions:
* C `int` is `Int`; the `uint32_t` event mask is `Nat` with `&&&` and `|||`.
* `goto exit` is an immediate return of the current value of `r`.
* The two `do ... while` loops may run for ever, so they take a fuel argument;
  `Outcome.more` means "still running when the fuel ran out".  The state (and
  so the trace) is returned in every case.
* In C, `continue` inside `do ... while (e)` transfers control to the
  evaluation of `e`; the embedding evaluates `e` there.
-/

namespace Fluxel

/-! ## Constants

`MAX_EV` is defined in `fluxel.c`.  The others come from the headers the file
includes (`<sys/epoll.h>`, `<fcntl.h>`, `<errno.h>`, `<stdlib.h>`,
`<sys/socket.h>`, `<systemd/sd-daemon.h>`) and have their Linux values. -/

def MAX_EV : Int := 256
def SD_LISTEN_FDS_START : Int := 3

def EPOLLIN : Nat := 0x001
def EPOLLERR : Nat := 0x008
def EPOLLHUP : Nat := 0x010
def EPOLLET : Nat := 0x80000000

def EPOLL_CTL_ADD : Int := 1
def EPOLL_CTL_DEL : Int := 2

def O_NONBLOCK : Int := 2048
def SOCK_NONBLOCK : Int := 2048
def AF_UNSPEC : Int := 0
def SOCK_STREAM : Int := 1
def SOCK_DGRAM : Int := 2

def EINTR : Int := 4
def EBADF : Int := 9
def EAGAIN : Int := 11
def EWOULDBLOCK : Int := 11
def ECONNABORTED : Int := 103

def EXIT_SUCCESS : Int := 0
def EXIT_FAILURE : Int := 1

/-- The state string that `main` passes to `sd_notify`. -/
def READY : String := "READY=1"

/-! ## Data model -/

/-- A `struct epoll_event`: the event mask and the `data.fd` member. -/
structure EpollEvent where
  events : Nat
  fd : Int
  deriving DecidableEq, Repr

/-- The diagnostics the program writes to standard error, one constructor per
`fprintf`/`fputs` call site (format arguments other than `%m` are kept). -/
inductive Diag where
  | getfl_failed (fd : Int)
  | setfl_failed (fd : Int)
  | epoll_create_failed
  | sd_is_socket_failed
  | not_a_listening_socket (fd : Int)
  | nonblock_failed (fd : Int)
  | add_socket_failed (fd : Int)
  | listener_error (fd : Int)
  | accept_failed
  | add_connection_failed (c : Int)
  | connection_error (fd : Int)
  | wait_failed
  | could_not_handle_connection
  | could_not_handle_read
  | sd_listen_fds_failed
  | no_listening_sockets
  | setup_failed
  deriving DecidableEq, Repr

/-- The calls the program can issue to its environment.  `close` is never
issued by `fluxel.c`; it is part of the alphabet so that statements about
closing a descriptor can be written down. -/
inductive Call where
  | sd_listen_fds (unset_environment : Int)
  | epoll_create1 (flags : Int)
  | sd_is_socket (fd family type listening : Int)
  | fcntl_getfl (fd : Int)
  | fcntl_setfl (fd flags : Int)
  | epoll_ctl (ep op fd : Int) (ev : Option EpollEvent)
  | accept4 (fd flags : Int)
  | epoll_wait (ep maxevents timeout : Int)
  | sd_notify (unset_environment : Int) (state : String)
  | close (fd : Int)
  | stderr (d : Diag)
  deriving DecidableEq, Repr

/-- What a descriptor inherited from the supervisor is. -/
inductive FdKind where
  | closed
  | nonSocket
  | socket (family type : Int) (listening : Bool)
  deriving DecidableEq, Repr

/-- Result of one `accept4` call: the return value and, when it is negative,
the value of `errno`. -/
structure SysRet where
  ret : Int
  errno : Int
  deriving DecidableEq, Repr

/-- Result of one `epoll_wait` call: the return value `nev`, `errno` when it is
negative, and the contents of the global `events` array after the call (an
index beyond the list reads as the zero-initialised static storage). -/
structure WaitRet where
  nev : Int
  errno : Int
  events : List EpollEvent
  deriving Repr

/-- The environment of one run: the result of every call the program makes.
`epoll_ctl`, `accept4` and `epoll_wait` are result streams, indexed by how
many calls of that kind were made before. -/
structure Env where
  sd_listen_fds : Int
  epoll_create1 : Int
  fdkind : Int → FdKind
  fcntl_getfl : Int → Int
  fcntl_setfl : Int → Int → Int
  epoll_ctl : Nat → Int
  accept4 : Nat → SysRet
  epoll_wait : Nat → WaitRet

/-- Program state as seen from outside: the calls issued so far, oldest
first, and the number of results consumed from each stream of `Env`. -/
structure State where
  trace : List Call
  nCtl : Nat
  nAccept : Nat
  nWait : Nat
  deriving DecidableEq, Repr

/-- The state at process start. -/
def State.init : State := ⟨[], 0, 0, 0⟩

/-- Record a call in the trace. -/
def State.call (st : State) (c : Call) : State :=
  { st with trace := st.trace ++ [c] }

/-- Write a diagnostic to standard error. -/
def State.log (st : State) (d : Diag) : State :=
  st.call (.stderr d)

/-- How a possibly non-terminating function ended. -/
inductive Outcome where
  /-- The function returned `r`. -/
  | ret (r : Int)
  /-- The `assert` of line 147 failed and the process was aborted. -/
  | abort
  /-- The fuel ran out while the loop was still running. -/
  | more
  deriving DecidableEq, Repr

/-! ## The environment's calls -/

/-- The documented result of systemd's `sd_is_socket(fd, family, type,
listening)`: negative when the descriptor cannot be examined, positive when
`fd` is a socket of the requested family (if `family > 0`) and type (if
`type != 0`) whose listening state equals the flag passed (if
`listening >= 0`), and `0` otherwise. -/
def sd_is_socket_result (k : FdKind) (family type listening : Int) : Int :=
  match k with
  | .closed => -EBADF
  | .nonSocket => 0
  | .socket fam ty l =>
    if type ≠ 0 ∧ ty ≠ type then 0
    else if 0 ≤ listening ∧ (l ≠ decide (0 < listening)) then 0
    else if 0 < family ∧ fam ≠ family then 0
    else 1

/-- The call `sd_is_socket(fd, family, type, listening)`. -/
def sd_is_socket (env : Env) (fd family type listening : Int) (st : State) : Int × State :=
  (sd_is_socket_result (env.fdkind fd) family type listening,
   st.call (.sd_is_socket fd family type listening))

/-- The call `epoll_ctl(ep, op, fd, ev)`: consumes one result of the stream. -/
def epoll_ctl (env : Env) (ep op fd : Int) (ev : Option EpollEvent) (st : State) : Int × State :=
  (env.epoll_ctl st.nCtl,
   { st with trace := st.trace ++ [.epoll_ctl ep op fd ev], nCtl := st.nCtl + 1 })

/-- The call `accept4(fd, NULL, NULL, flags)`: consumes one result of the stream. -/
def accept4 (env : Env) (fd flags : Int) (st : State) : SysRet × State :=
  (env.accept4 st.nAccept,
   { st with trace := st.trace ++ [.accept4 fd flags], nAccept := st.nAccept + 1 })

/-- The call `epoll_wait(ep, events, maxevents, timeout)`: consumes one result
of the stream. -/
def epoll_wait (env : Env) (ep maxevents timeout : Int) (st : State) : WaitRet × State :=
  (env.epoll_wait st.nWait,
   { st with trace := st.trace ++ [.epoll_wait ep maxevents timeout], nWait := st.nWait + 1 })

/-! ## `fluxel.c` -/

/-- The function `set_nonblock` (lines 18-35). -/
def set_nonblock (env : Env) (fd : Int) (st : State) : Int × State :=
  let r := env.fcntl_getfl fd
  let st := st.call (.fcntl_getfl fd)
  if r < 0 then
    (r, st.log (.getfl_failed fd))
  else
    let flags := Int.lor r O_NONBLOCK
    let r := env.fcntl_setfl fd flags
    let st := st.call (.fcntl_setfl fd flags)
    if r ≠ 0 then
      (r, st.log (.setfl_failed fd))
    else
      (r, st)

/-- The `for` loop of `setup_sockets` (lines 49-72) over the indices still to
visit; `true` when the loop ran to its end, `false` on `goto exit`. -/
def setup_sockets_for (env : Env) (ep : Int) : List Nat → State → Bool × State
  | [], st => (true, st)
  | i :: rest, st =>
    let fd := SD_LISTEN_FDS_START + (i : Int)
    let (s, st) := sd_is_socket env fd AF_UNSPEC SOCK_STREAM 0 st
    if s < 0 then
      (false, st.log .sd_is_socket_failed)
    else if s ≠ 0 then
      (false, st.log (.not_a_listening_socket fd))
    else
      let (nb, st) := set_nonblock env fd st
      if nb ≠ 0 then
        (false, st.log (.nonblock_failed fd))
      else
        let (c, st) := epoll_ctl env ep EPOLL_CTL_ADD fd (some ⟨EPOLLIN ||| EPOLLET, fd⟩) st
        if c ≠ 0 then
          (false, st.log (.add_socket_failed fd))
        else
          setup_sockets_for env ep rest st

/-- The function `setup_sockets` (lines 37-78). -/
def setup_sockets (env : Env) (n : Int) (st : State) : Int × State :=
  let ep := env.epoll_create1
  let st := st.call (.epoll_create1 0)
  if ep < 0 then
    (-1, st.log .epoll_create_failed)
  else
    match setup_sockets_for env ep (List.range n.toNat) st with
    | (true, st) => (ep, st)
    | (false, st) => (-1, st)

/-- The `do ... while (c >= 0)` loop of `handle_accept` (lines 90-115),
followed by `r = -1` (line 117) when the loop is left through its condition. -/
def handle_accept_loop (env : Env) (ep : Int) (ev : EpollEvent) : Nat → State → Outcome × State
  | 0, st => (.more, st)
  | fuel + 1, st =>
    let (a, st) := accept4 env ev.fd SOCK_NONBLOCK st
    let c := a.ret
    if c < 0 then
      if a.errno = ECONNABORTED ∨ a.errno = EINTR then
        -- `continue`: control goes to the condition `c >= 0`
        if 0 ≤ c then handle_accept_loop env ep ev fuel st else (.ret (-1), st)
      else if a.errno = EAGAIN ∨ a.errno = EWOULDBLOCK then
        (.ret 0, st)
      else
        (.ret (-1), st.log .accept_failed)
    else
      let (x, st) := epoll_ctl env ep EPOLL_CTL_ADD c (some ⟨EPOLLIN ||| EPOLLET, c⟩) st
      if x ≠ 0 then
        (.ret (-1), st.log (.add_connection_failed c))
      else if 0 ≤ c then handle_accept_loop env ep ev fuel st else (.ret (-1), st)

/-- The function `handle_accept` (lines 80-121). -/
def handle_accept (env : Env) (fuel : Nat) (ep : Int) (ev : EpollEvent) (st : State) :
    Outcome × State :=
  if ev.events &&& EPOLLERR ≠ 0 then
    (.ret (-1), st.log (.listener_error ev.fd))
  else
    handle_accept_loop env ep ev fuel st

/-- The function `handle_read` (lines 123-139); `r` is never assigned after
its initialisation to `-1`. -/
def handle_read (env : Env) (ep : Int) (ev : EpollEvent) (st : State) : Int × State :=
  let r : Int := -1
  if ev.events &&& (EPOLLERR ||| EPOLLHUP) ≠ 0 then
    let st := (epoll_ctl env ep EPOLL_CTL_DEL ev.fd none st).2
    if ev.events &&& EPOLLERR ≠ 0 then
      (r, st.log (.connection_error ev.fd))
    else
      (r, st)
  else
    (r, st)

/-- Which handler an event is routed to. -/
inductive Handler where
  | accept
  | read
  deriving DecidableEq, Repr

/-- The test of line 159, `events[i].data.fd < SD_LISTEN_FDS_START + n`. -/
def classify (n fd : Int) : Handler :=
  if fd < SD_LISTEN_FDS_START + n then .accept else .read

/-- The body of the `for` loop of `event_loop` (lines 159-169) for one event:
`none` when the body ran to its end, `some o` when control left the loop
(`goto exit` with `r = -1`, or the handler did not return). -/
def dispatch_event (env : Env) (afuel : Nat) (ep n : Int) (ev : EpollEvent) (st : State) :
    Option Outcome × State :=
  match classify n ev.fd with
  | .accept =>
    match handle_accept env afuel ep ev st with
    | (.ret h, st) =>
      if h ≠ 0 then (some (.ret (-1)), st.log .could_not_handle_connection) else (none, st)
    | (o, st) => (some o, st)
  | .read =>
    let (h, st) := handle_read env ep ev st
    if h ≠ 0 then (some (.ret (-1)), st.log .could_not_handle_read) else (none, st)

/-- The `for` loop of `event_loop` (lines 158-170) over the indices still to
visit, reading `events[i]` from the buffer `buf`. -/
def event_loop_for (env : Env) (afuel : Nat) (ep n : Int) (buf : List EpollEvent) :
    List Nat → State → Option Outcome × State
  | [], st => (none, st)
  | i :: rest, st =>
    match dispatch_event env afuel ep n (buf.getD i ⟨0, 0⟩) st with
    | (none, st) => event_loop_for env afuel ep n buf rest st
    | (some o, st) => (some o, st)

/-- The function `event_loop` (lines 141-175): `fuel` bounds the iterations of
the `do ... while (nev >= 0)` loop, `afuel` those of each accept loop. -/
def event_loop (env : Env) (afuel : Nat) (ep n : Int) : Nat → State → Outcome × State
  | 0, st => (.more, st)
  | fuel + 1, st =>
    let (w, st) := epoll_wait env ep MAX_EV (-1) st
    let nev := w.nev
    if nev = 0 then
      (.abort, st)
    else if nev < 0 then
      if w.errno = EINTR then
        -- `continue`: control goes to the condition `nev >= 0`
        if 0 ≤ nev then event_loop env afuel ep n fuel st else (.ret (-1), st)
      else
        (.ret (-1), st.log .wait_failed)
    else
      match event_loop_for env afuel ep n w.events (List.range nev.toNat) st with
      | (some o, st) => (o, st)
      | (none, st) =>
        if 0 ≤ nev then event_loop env afuel ep n fuel st else (.ret (-1), st)

/-- The function `main` (lines 177-203). -/
def main (env : Env) (afuel fuel : Nat) : Outcome × State :=
  let n := env.sd_listen_fds
  let st := State.init.call (.sd_listen_fds 1)
  if n < 0 then
    (.ret EXIT_FAILURE, st.log .sd_listen_fds_failed)
  else if n = 0 then
    (.ret EXIT_FAILURE, st.log .no_listening_sockets)
  else
    let (ep, st) := setup_sockets env n st
    if ep < 0 then
      (.ret EXIT_FAILURE, st.log .setup_failed)
    else
      let st := st.call (.sd_notify 0 READY)
      match event_loop env afuel ep n fuel st with
      | (.ret _, st) => (.ret EXIT_SUCCESS, st)
      | (o, st) => (o, st)

/-! ## Vocabulary for statements about traces -/

/-- Is the call an `sd_notify`? -/
def Call.isNotify : Call → Bool
  | .sd_notify _ _ => true
  | _ => false

/-- Is the call an `epoll_wait`? -/
def Call.isWait : Call → Bool
  | .epoll_wait _ _ _ => true
  | _ => false

/-- Is the call an `epoll_ctl`? -/
def Call.isCtl : Call → Bool
  | .epoll_ctl _ _ _ _ => true
  | _ => false

/-- Is the call a `close`? -/
def Call.isClose : Call → Bool
  | .close _ => true
  | _ => false

/-- The four calls by which `setup_sockets` registers the listening descriptor
of index `i` on the epoll instance `ep` when every step succeeds. -/
def register_calls (env : Env) (ep : Int) (i : Nat) : List Call :=
  [ .sd_is_socket (SD_LISTEN_FDS_START + (i : Int)) AF_UNSPEC SOCK_STREAM 0,
    .fcntl_getfl (SD_LISTEN_FDS_START + (i : Int)),
    .fcntl_setfl (SD_LISTEN_FDS_START + (i : Int))
      (Int.lor (env.fcntl_getfl (SD_LISTEN_FDS_START + (i : Int))) O_NONBLOCK),
    .epoll_ctl ep EPOLL_CTL_ADD (SD_LISTEN_FDS_START + (i : Int))
      (some ⟨EPOLLIN ||| EPOLLET, SD_LISTEN_FDS_START + (i : Int)⟩) ]

/-- The two calls of one accept-loop iteration that accepts the connection
delivered by result `j` of the `accept4` stream and registers it on `ep`. -/
def accept_calls (env : Env) (ep lfd : Int) (j : Nat) : List Call :=
  [ .accept4 lfd SOCK_NONBLOCK,
    .epoll_ctl ep EPOLL_CTL_ADD (env.accept4 j).ret
      (some ⟨EPOLLIN ||| EPOLLET, (env.accept4 j).ret⟩) ]

/-- The state `st'` is `st` followed by further calls, all of which satisfy `P`. -/
def Extends (P : Call → Prop) (st st' : State) : Prop :=
  ∃ ext, st'.trace = st.trace ++ ext ∧ ∀ c ∈ ext, P c

/-- The calls of set-up: neither `sd_notify` nor `epoll_wait`. -/
def SetupCall (c : Call) : Prop := c.isNotify = false ∧ c.isWait = false

/-- The calls of the dispatch loop: never `sd_notify`. -/
def LoopCall (c : Call) : Prop := c.isNotify = false

/-! ## Concrete environments -/

/-- One listening stream socket on descriptor 3; every set-up call succeeds,
`accept4` would block and `epoll_wait` fails with `EBADF`. -/
def envOk : Env :=
  { sd_listen_fds := 1, epoll_create1 := 4,
    fdkind := fun _ => .socket 2 SOCK_STREAM true,
    fcntl_getfl := fun _ => 2, fcntl_setfl := fun _ _ => 0,
    epoll_ctl := fun _ => 0,
    accept4 := fun _ => ⟨-1, EAGAIN⟩,
    epoll_wait := fun _ => ⟨-1, EBADF, []⟩ }

/-- The first `epoll_wait` is interrupted, the second delivers one event on
the listening descriptor 3. -/
def envWaitEintr : Env :=
  { envOk with
    epoll_wait := fun i => if i = 0 then ⟨-1, EINTR, []⟩ else ⟨1, 0, [⟨EPOLLIN, 3⟩]⟩ }

/-- The first `accept4` is interrupted, the next two accept the connections 7
and 8, the fourth would block. -/
def envAcceptEintr : Env :=
  { envOk with
    accept4 := fun i =>
      if i = 0 then ⟨-1, EINTR⟩ else if i = 1 then ⟨7, 0⟩
      else if i = 2 then ⟨8, 0⟩ else ⟨-1, EAGAIN⟩ }

/-- Three connections 7, 8, 9 are pending, then `accept4` would block. -/
def envThreePending : Env :=
  { envOk with
    accept4 := fun i => if i < 3 then ⟨7 + (i : Int), 0⟩ else ⟨-1, EAGAIN⟩ }

/-- Descriptor 3 is not a socket (a pipe, say); every other call succeeds. -/
def envNonSocket : Env :=
  { envOk with fdkind := fun _ => .nonSocket }

/-- Two listening stream sockets on descriptors 3 and 4. -/
def envTwoListeners : Env :=
  { envOk with sd_listen_fds := 2 }

/-- Two listening stream sockets on descriptors 3 and 4; the `epoll_ctl` call
for the first succeeds, every later `epoll_ctl` call fails. -/
def envSecondAddFails : Env :=
  { envOk with sd_listen_fds := 2, epoll_ctl := fun i => if i = 0 then 0 else -1 }

/-- No descriptor was passed. -/
def envNoListeners : Env :=
  { envOk with sd_listen_fds := 0 }

/-- One batch of two events: a hang-up on the connection 7, then a readable
listening descriptor 3. -/
def envHangup : Env :=
  { envOk with
    epoll_wait := fun _ => ⟨2, 0, [⟨EPOLLHUP, 7⟩, ⟨EPOLLIN, 3⟩]⟩ }

/-- Every `epoll_wait` delivers one event on descriptor 0. -/
def envLowFd : Env :=
  { envOk with epoll_wait := fun _ => ⟨1, 0, [⟨EPOLLIN, 0⟩]⟩ }

/-! # Theorems -/

/-! ## Bit masks -/

theorem lor_eq_zero_iff (a b : Nat) : a ||| b = 0 ↔ a = 0 ∧ b = 0 := by
  constructor
  · intro h
    have bit : ∀ i, a.testBit i = false ∧ b.testBit i = false := by
      intro i
      have hi := congrArg (fun x => x.testBit i) h
      simpa [Nat.testBit_or] using hi
    constructor <;> apply Nat.eq_of_testBit_eq <;> intro i <;> simp [bit i]
  · rintro ⟨rfl, rfl⟩
    rfl

/-- The test of line 126 succeeds exactly when one of the two bits is set. -/
theorem err_or_hup_iff (m : Nat) :
    m &&& (EPOLLERR ||| EPOLLHUP) ≠ 0 ↔ (m &&& EPOLLERR ≠ 0 ∨ m &&& EPOLLHUP ≠ 0) := by
  rw [Nat.and_or_distrib_left, Ne, lor_eq_zero_iff]
  tauto

/-! ## `handle_read` -/

/-- The function `handle_read` returns `-1` on every event. -/
theorem handle_read_ret (env : Env) (ep : Int) (ev : EpollEvent) (st : State) :
    (handle_read env ep ev st).1 = -1 := by
  unfold handle_read
  split_ifs <;> rfl

/-- The state `handle_read` leaves when one of the two bits is set. -/
theorem handle_read_state_of_set (env : Env) (ep : Int) (ev : EpollEvent) (st : State)
    (h : ev.events &&& EPOLLERR ≠ 0 ∨ ev.events &&& EPOLLHUP ≠ 0) :
    (handle_read env ep ev st).2 =
      ⟨st.trace ++ Call.epoll_ctl ep EPOLL_CTL_DEL ev.fd none ::
          (if ev.events &&& EPOLLERR ≠ 0 then [Call.stderr (.connection_error ev.fd)] else []),
        st.nCtl + 1, st.nAccept, st.nWait⟩ := by
  have h' := (err_or_hup_iff ev.events).2 h
  unfold handle_read
  rw [if_pos h']
  by_cases he : ev.events &&& EPOLLERR ≠ 0
  · simp [he, epoll_ctl, State.log, State.call]
  · simp [he, epoll_ctl]

/-- The state `handle_read` leaves when neither bit is set. -/
theorem handle_read_state_of_clear (env : Env) (ep : Int) (ev : EpollEvent) (st : State)
    (h : ev.events &&& EPOLLERR = 0 ∧ ev.events &&& EPOLLHUP = 0) :
    (handle_read env ep ev st).2 = st := by
  have h' : ¬ ev.events &&& (EPOLLERR ||| EPOLLHUP) ≠ 0 := by
    rw [err_or_hup_iff]
    simp [h.1, h.2]
  unfold handle_read
  rw [if_neg h']

/-- C8 (as amended): on an event whose mask has `EPOLLERR` or `EPOLLHUP` set,
`handle_read` issues exactly one `EPOLL_CTL_DEL` for the descriptor, followed
only by the error diagnostic when `EPOLLERR` is set, and issues no `close`;
when neither bit is set it issues no call at all. -/
theorem handle_read_teardown (env : Env) (ep : Int) (ev : EpollEvent) (st : State) :
    ((ev.events &&& EPOLLERR ≠ 0 ∨ ev.events &&& EPOLLHUP ≠ 0) →
      ∃ added : List Call,
        (handle_read env ep ev st).2.trace = st.trace ++ added ∧
        added = Call.epoll_ctl ep EPOLL_CTL_DEL ev.fd none ::
          (if ev.events &&& EPOLLERR ≠ 0 then [Call.stderr (.connection_error ev.fd)] else []) ∧
        added.count (Call.epoll_ctl ep EPOLL_CTL_DEL ev.fd none) = 1 ∧
        (∀ c ∈ added, c.isClose = false)) ∧
    ((ev.events &&& EPOLLERR = 0 ∧ ev.events &&& EPOLLHUP = 0) →
      (handle_read env ep ev st).2 = st) := by
  refine ⟨fun h => ?_, handle_read_state_of_clear env ep ev st⟩
  refine ⟨_, ?_, rfl, ?_, ?_⟩
  · rw [handle_read_state_of_set env ep ev st h]
  · by_cases he : ev.events &&& EPOLLERR ≠ 0 <;> simp [he]
  · intro c hc
    by_cases he : ev.events &&& EPOLLERR ≠ 0 <;> simp [he] at hc
    · rcases hc with rfl | rfl <;> rfl
    · subst hc; rfl

/-- C8 (as stated) fails: on a hang-up event for the connection 7,
`handle_read` deregisters the descriptor and returns without any `close`. -/
theorem handle_read_never_closes :
    EPOLLHUP &&& EPOLLHUP ≠ 0 ∧
    (handle_read envOk 4 ⟨EPOLLHUP, 7⟩ State.init).2.trace
      = [Call.epoll_ctl 4 EPOLL_CTL_DEL 7 none] ∧
    (handle_read envOk 4 ⟨EPOLLHUP, 7⟩ State.init).2.trace.count (Call.close 7) ≠ 1 := by
  decide


/-! ## Dispatch -/

theorem classify_accept_iff (n fd : Int) :
    classify n fd = .accept ↔ fd < SD_LISTEN_FDS_START + n := by
  unfold classify
  split_ifs with h <;> simp [h]

theorem classify_read_iff (n fd : Int) :
    classify n fd = .read ↔ SD_LISTEN_FDS_START + n ≤ fd := by
  unfold classify
  split_ifs with h
  · simp; omega
  · simp; omega

/-- An event at or above the end of the listening range goes to `handle_read`,
whose `-1` makes the loop body leave through `exit`. -/
theorem dispatch_event_read (env : Env) (afuel : Nat) (ep n : Int) (ev : EpollEvent)
    (st : State) (h : SD_LISTEN_FDS_START + n ≤ ev.fd) :
    dispatch_event env afuel ep n ev st =
      (some (.ret (-1)), (handle_read env ep ev st).2.log .could_not_handle_read) := by
  have hr := handle_read_ret env ep ev st
  unfold dispatch_event
  rw [(classify_read_iff n ev.fd).2 h]
  simp [hr]

/-- The `for` loop over a concatenation of index lists. -/
theorem event_loop_for_append (env : Env) (afuel : Nat) (ep n : Int) (buf : List EpollEvent)
    (xs ys : List Nat) (st : State) :
    event_loop_for env afuel ep n buf (xs ++ ys) st =
      match event_loop_for env afuel ep n buf xs st with
      | (none, st1) => event_loop_for env afuel ep n buf ys st1
      | (some o, st1) => (some o, st1) := by
  induction xs generalizing st with
  | nil => simp [event_loop_for]
  | cons i rest ih =>
    simp only [List.cons_append, event_loop_for]
    rcases hd : dispatch_event env afuel ep n (buf.getD i ⟨0, 0⟩) st with ⟨_ | o, st1⟩
    · simp [ih]
    · simp

/-- C3 (as amended): when the `for` loop of `event_loop` reaches, at index `i`
of a batch, an event on a connection descriptor whose mask has `EPOLLERR` or
`EPOLLHUP` set, `handle_read` deregisters the descriptor and returns `-1`, and
`event_loop` reports "Could not handle read" and returns `-1`: the remaining
events of the batch are not dispatched and `epoll_wait` is not called again. -/
theorem event_loop_stops_on_connection_event (env : Env) (afuel : Nat) (ep n : Int)
    (fuel : Nat) (st st1 : State) (before after : List Nat) (i : Nat)
    (hnev : 0 < (env.epoll_wait st.nWait).nev)
    (hidx : List.range (env.epoll_wait st.nWait).nev.toNat = before ++ i :: after)
    (hpre : event_loop_for env afuel ep n (env.epoll_wait st.nWait).events before
              (epoll_wait env ep MAX_EV (-1) st).2 = (none, st1))
    (hconn : SD_LISTEN_FDS_START + n ≤ ((env.epoll_wait st.nWait).events.getD i ⟨0, 0⟩).fd)
    (hmask : ((env.epoll_wait st.nWait).events.getD i ⟨0, 0⟩).events &&& EPOLLERR ≠ 0 ∨
             ((env.epoll_wait st.nWait).events.getD i ⟨0, 0⟩).events &&& EPOLLHUP ≠ 0) :
    event_loop env afuel ep n (fuel + 1) st =
      (.ret (-1),
       ⟨st1.trace ++
          [Call.epoll_ctl ep EPOLL_CTL_DEL ((env.epoll_wait st.nWait).events.getD i ⟨0, 0⟩).fd none]
          ++ (if ((env.epoll_wait st.nWait).events.getD i ⟨0, 0⟩).events &&& EPOLLERR ≠ 0
              then [Call.stderr (.connection_error
                      ((env.epoll_wait st.nWait).events.getD i ⟨0, 0⟩).fd)]
              else [])
          ++ [Call.stderr .could_not_handle_read],
        st1.nCtl + 1, st1.nAccept, st1.nWait⟩) := by
  have hfor : event_loop_for env afuel ep n (env.epoll_wait st.nWait).events
      (List.range (env.epoll_wait st.nWait).nev.toNat) (epoll_wait env ep MAX_EV (-1) st).2 =
      (some (.ret (-1)),
        (handle_read env ep ((env.epoll_wait st.nWait).events.getD i ⟨0, 0⟩) st1).2.log
          .could_not_handle_read) := by
    rw [hidx, event_loop_for_append, hpre]
    simp only [event_loop_for]
    rw [dispatch_event_read env afuel ep n _ st1 hconn]
  have h0 : ¬ (env.epoll_wait st.nWait).nev = 0 := by omega
  have h1 : ¬ (env.epoll_wait st.nWait).nev < 0 := by omega
  have hw : (epoll_wait env ep MAX_EV (-1) st).1 = env.epoll_wait st.nWait := rfl
  unfold event_loop
  simp only [hw, h0, h1, if_false, hfor]
  rw [handle_read_state_of_set env ep _ st1 hmask]
  simp [State.log, State.call]

/-- Witness for C3 (as amended): a hang-up on the connection 7 is the first
event of a batch whose second event is on the listening descriptor 3. -/
theorem event_loop_stops_on_connection_event_witness :
    event_loop envHangup 8 4 1 (7 + 1) State.init =
      (.ret (-1),
       ⟨[Call.epoll_wait 4 MAX_EV (-1)] ++ [Call.epoll_ctl 4 EPOLL_CTL_DEL 7 none] ++
          (if EPOLLHUP &&& EPOLLERR ≠ 0 then [Call.stderr (.connection_error 7)] else []) ++
          [Call.stderr .could_not_handle_read],
        0 + 1, 0, 1⟩) :=
  event_loop_stops_on_connection_event envHangup 8 4 1 7 State.init
    ⟨[Call.epoll_wait 4 MAX_EV (-1)], 0, 0, 1⟩ [] [1] 0
    (by decide) (by decide) (by decide) (by decide) (by decide)

/-- C3 (as stated) fails: after the hang-up on the connection 7 `event_loop`
returns `-1`; the event on the listening descriptor 3 that follows in the same
batch is never dispatched (no `accept4`) and there is no second `epoll_wait`. -/
theorem event_loop_hangup_terminates :
    event_loop envHangup 8 4 1 8 State.init =
      (.ret (-1),
       ⟨[Call.epoll_wait 4 MAX_EV (-1), Call.epoll_ctl 4 EPOLL_CTL_DEL 7 none,
         Call.stderr .could_not_handle_read], 1, 0, 1⟩) := by
  decide


/-- C10 (as amended): `event_loop` routes an event to `handle_accept` exactly
when its descriptor is below `SD_LISTEN_FDS_START + n`, with no lower bound, and
to `handle_read` exactly when it is at or above `SD_LISTEN_FDS_START + n`. -/
theorem dispatch_by_upper_bound (env : Env) (afuel : Nat) (ep n : Int) (ev : EpollEvent)
    (st : State) :
    (classify n ev.fd = .accept ↔ ev.fd < SD_LISTEN_FDS_START + n) ∧
    (classify n ev.fd = .read ↔ SD_LISTEN_FDS_START + n ≤ ev.fd) ∧
    (ev.fd < SD_LISTEN_FDS_START + n →
      dispatch_event env afuel ep n ev st =
        match handle_accept env afuel ep ev st with
        | (.ret h, st1) =>
          if h ≠ 0 then (some (.ret (-1)), st1.log .could_not_handle_connection)
          else (none, st1)
        | (o, st1) => (some o, st1)) ∧
    (SD_LISTEN_FDS_START + n ≤ ev.fd →
      dispatch_event env afuel ep n ev st =
        (some (.ret (-1)), (handle_read env ep ev st).2.log .could_not_handle_read)) := by
  refine ⟨classify_accept_iff n ev.fd, classify_read_iff n ev.fd, fun h => ?_,
    dispatch_event_read env afuel ep n ev st⟩
  unfold dispatch_event
  rw [(classify_accept_iff n ev.fd).2 h]

/-- C10 (as stated) fails: with one listener, an event on descriptor 0, which
lies below `SD_LISTEN_FDS_START`, is routed to `handle_accept`: the loop calls
`accept4` on descriptor 0. -/
theorem low_descriptor_routed_to_accept :
    ¬ (SD_LISTEN_FDS_START ≤ 0 ∧ 0 < SD_LISTEN_FDS_START + 1) ∧
    classify 1 0 = .accept ∧
    event_loop envLowFd 8 4 1 1 State.init =
      (.more, ⟨[Call.epoll_wait 4 MAX_EV (-1), Call.accept4 0 SOCK_NONBLOCK], 0, 1, 1⟩) := by
  decide

/-! ## `handle_accept` -/

/-- The accept loop drains `k` pending connections and stops on would-block. -/
theorem handle_accept_loop_drain (env : Env) (ep : Int) (ev : EpollEvent) :
    ∀ (k fuel : Nat) (st : State), k < fuel →
      (∀ i, i < k → 0 ≤ (env.accept4 (st.nAccept + i)).ret) →
      (env.accept4 (st.nAccept + k)).ret < 0 →
      ((env.accept4 (st.nAccept + k)).errno = EAGAIN ∨
        (env.accept4 (st.nAccept + k)).errno = EWOULDBLOCK) →
      (∀ i, i < k → env.epoll_ctl (st.nCtl + i) = 0) →
      handle_accept_loop env ep ev fuel st =
        (.ret 0,
         ⟨st.trace ++ (List.range' st.nAccept k).flatMap (accept_calls env ep ev.fd)
            ++ [Call.accept4 ev.fd SOCK_NONBLOCK],
          st.nCtl + k, st.nAccept + k + 1, st.nWait⟩) := by
  intro k
  induction k with
  | zero =>
    intro fuel st hf _ hneg hwb _
    obtain ⟨f, rfl⟩ : ∃ f, fuel = f + 1 := ⟨fuel - 1, by omega⟩
    have hnot : ¬ ((env.accept4 st.nAccept).errno = ECONNABORTED ∨
        (env.accept4 st.nAccept).errno = EINTR) := by
      rcases hwb with h | h <;> simp at h <;> rw [h] <;> decide
    simp only [Nat.add_zero] at hneg hwb
    unfold handle_accept_loop
    simp [accept4, hneg, hnot, hwb]
  | succ k ih =>
    intro fuel st hf hok hneg hwb hctl
    obtain ⟨f, rfl⟩ : ∃ f, fuel = f + 1 := ⟨fuel - 1, by omega⟩
    have h0 : 0 ≤ (env.accept4 st.nAccept).ret := by simpa using hok 0 (by omega)
    have h0' : ¬ (env.accept4 st.nAccept).ret < 0 := by omega
    have hc0 : env.epoll_ctl st.nCtl = 0 := by simpa using hctl 0 (by omega)
    unfold handle_accept_loop
    simp only [accept4, epoll_ctl, h0', if_false, hc0, ne_eq, not_true_eq_false, h0, if_true]
    rw [ih f _ (by omega)
      (fun i hi => by simpa [Nat.add_assoc, Nat.add_comm 1 i] using hok (i + 1) (by omega))
      (by simpa [Nat.add_assoc, Nat.add_comm 1 k] using hneg)
      (by simpa [Nat.add_assoc, Nat.add_comm 1 k] using hwb)
      (fun i hi => by simpa [Nat.add_assoc, Nat.add_comm 1 i] using hctl (i + 1) (by omega))]
    simp [List.range'_succ, accept_calls, Nat.add_assoc, Nat.add_comm 1 k]

/-- The accept loop returns `0` only from the would-block branch: its last call
is an `accept4` whose result is negative with `errno` `EAGAIN`/`EWOULDBLOCK`. -/
theorem handle_accept_loop_zero (env : Env) (ep : Int) (ev : EpollEvent) :
    ∀ (fuel : Nat) (st st' : State),
      handle_accept_loop env ep ev fuel st = (.ret 0, st') →
      st.nAccept < st'.nAccept ∧
      (∃ before, st'.trace = before ++ [Call.accept4 ev.fd SOCK_NONBLOCK]) ∧
      (env.accept4 (st'.nAccept - 1)).ret < 0 ∧
      ((env.accept4 (st'.nAccept - 1)).errno = EAGAIN ∨
        (env.accept4 (st'.nAccept - 1)).errno = EWOULDBLOCK) := by
  intro fuel
  induction fuel with
  | zero =>
    intro st st' h
    simp [handle_accept_loop] at h
  | succ f ih =>
    intro st st' h
    unfold handle_accept_loop at h
    simp only [accept4, epoll_ctl] at h
    split_ifs at h with h1 h2 h3 h4 h5 h6
    · omega
    · simp at h
    · simp only [Prod.mk.injEq, true_and] at h
      subst h
      exact ⟨by simp, ⟨_, rfl⟩, by simpa using h1, by simpa using h4⟩
    · simp at h
    · simp at h
    · have := ih _ _ h
      simp only at this
      exact ⟨by omega, this.2⟩
    · simp at h


/-- C2: when the event has no `EPOLLERR` bit, the next `k` results of the
`accept4` stream are successful descriptors, the one after them is a would-block
failure, and the `k` `epoll_ctl` calls succeed, `handle_accept` (given fuel for
`k + 1` iterations) returns `0` after exactly `k + 1` `accept4` calls, having
registered exactly those `k` descriptors with `EPOLLIN | EPOLLET` in acceptance
order; and whenever `handle_accept` returns `0`, its last call was an `accept4`
that failed with would-block. -/
theorem handle_accept_drains (env : Env) (ep : Int) (ev : EpollEvent) (st : State)
    (k fuel : Nat)
    (herr : ev.events &&& EPOLLERR = 0)
    (hok : ∀ i, i < k → 0 ≤ (env.accept4 (st.nAccept + i)).ret)
    (hneg : (env.accept4 (st.nAccept + k)).ret < 0)
    (hwb : (env.accept4 (st.nAccept + k)).errno = EAGAIN ∨
           (env.accept4 (st.nAccept + k)).errno = EWOULDBLOCK)
    (hctl : ∀ i, i < k → env.epoll_ctl (st.nCtl + i) = 0)
    (hfuel : k < fuel) :
    handle_accept env fuel ep ev st =
        (.ret 0,
         ⟨st.trace ++ (List.range' st.nAccept k).flatMap (accept_calls env ep ev.fd)
            ++ [Call.accept4 ev.fd SOCK_NONBLOCK],
          st.nCtl + k, st.nAccept + k + 1, st.nWait⟩) ∧
    (∀ (env' : Env) (fuel' : Nat) (ep' : Int) (ev' : EpollEvent) (st0 st' : State),
      handle_accept env' fuel' ep' ev' st0 = (.ret 0, st') →
        st0.nAccept < st'.nAccept ∧
        (∃ before, st'.trace = before ++ [Call.accept4 ev'.fd SOCK_NONBLOCK]) ∧
        (env'.accept4 (st'.nAccept - 1)).ret < 0 ∧
        ((env'.accept4 (st'.nAccept - 1)).errno = EAGAIN ∨
          (env'.accept4 (st'.nAccept - 1)).errno = EWOULDBLOCK)) := by
  constructor
  · unfold handle_accept
    rw [if_neg (by simpa using herr)]
    exact handle_accept_loop_drain env ep ev k fuel st hfuel hok hneg hwb hctl
  · intro env' fuel' ep' ev' st0 st' h
    unfold handle_accept at h
    split_ifs at h with he
    · simp at h
    · exact handle_accept_loop_zero env' ep' ev' fuel' st0 st' h

/-- Witness for C2: one readiness event on the listening descriptor 3 with three
pending connections 7, 8, 9 gives four `accept4` calls and three registrations. -/
theorem handle_accept_drains_witness :
    handle_accept envThreePending 4 4 ⟨EPOLLIN, 3⟩ State.init =
      (.ret 0,
       ⟨[Call.accept4 3 SOCK_NONBLOCK,
         Call.epoll_ctl 4 EPOLL_CTL_ADD 7 (some ⟨EPOLLIN ||| EPOLLET, 7⟩),
         Call.accept4 3 SOCK_NONBLOCK,
         Call.epoll_ctl 4 EPOLL_CTL_ADD 8 (some ⟨EPOLLIN ||| EPOLLET, 8⟩),
         Call.accept4 3 SOCK_NONBLOCK,
         Call.epoll_ctl 4 EPOLL_CTL_ADD 9 (some ⟨EPOLLIN ||| EPOLLET, 9⟩),
         Call.accept4 3 SOCK_NONBLOCK], 3, 4, 0⟩) :=
  (handle_accept_drains envThreePending 4 ⟨EPOLLIN, 3⟩ State.init 3 4
    (by decide) (by decide) (by decide) (by decide) (by decide) (by decide)).1

/-- A transient `accept4` failure ends the accept loop: `continue` reaches the
condition `c >= 0` with `c < 0`, so `handle_accept` returns `-1` at once. -/
theorem handle_accept_transient (env : Env) (fuel : Nat) (ep : Int) (ev : EpollEvent)
    (st : State) (herr : ev.events &&& EPOLLERR = 0)
    (hneg : (env.accept4 st.nAccept).ret < 0)
    (htr : (env.accept4 st.nAccept).errno = ECONNABORTED ∨
           (env.accept4 st.nAccept).errno = EINTR) :
    handle_accept env (fuel + 1) ep ev st =
      (.ret (-1), ⟨st.trace ++ [Call.accept4 ev.fd SOCK_NONBLOCK],
                   st.nCtl, st.nAccept + 1, st.nWait⟩) := by
  have h0 : ¬ 0 ≤ (env.accept4 st.nAccept).ret := by omega
  unfold handle_accept
  rw [if_neg (by simpa using herr)]
  unfold handle_accept_loop
  simp [accept4, hneg, htr, h0]

/-- C9: the code does not retry.  With `accept4` results `[EINTR, 7, 8,
would-block]` `handle_accept` returns `-1` after the first `accept4` call, and
registers nothing. -/
theorem handle_accept_eintr_not_retried :
    (envAcceptEintr.accept4 0).ret < 0 ∧ (envAcceptEintr.accept4 0).errno = EINTR ∧
    handle_accept envAcceptEintr 8 4 ⟨EPOLLIN, 3⟩ State.init =
      (.ret (-1), ⟨[Call.accept4 3 SOCK_NONBLOCK], 0, 1, 0⟩) := by
  decide

/-! ## `event_loop` -/

/-- An interrupted `epoll_wait` ends the dispatch loop: `continue` reaches the
condition `nev >= 0` with `nev < 0`, so `event_loop` returns `-1` at once. -/
theorem event_loop_interrupted (env : Env) (afuel : Nat) (ep n : Int) (fuel : Nat)
    (st : State) (hneg : (env.epoll_wait st.nWait).nev < 0)
    (hint : (env.epoll_wait st.nWait).errno = EINTR) :
    event_loop env afuel ep n (fuel + 1) st =
      (.ret (-1), ⟨st.trace ++ [Call.epoll_wait ep MAX_EV (-1)],
                   st.nCtl, st.nAccept, st.nWait + 1⟩) := by
  have h0 : ¬ (env.epoll_wait st.nWait).nev = 0 := by omega
  have h1 : ¬ 0 ≤ (env.epoll_wait st.nWait).nev := by omega
  unfold event_loop
  simp [epoll_wait, hneg, hint, h0, h1]

/-- C1: the code does not retry.  With `epoll_wait` results `[EINTR, a batch of
one event]` `event_loop` returns `-1` after the first `epoll_wait` call; the
batch is never fetched or dispatched. -/
theorem event_loop_eintr_not_retried :
    (envWaitEintr.epoll_wait 0).nev < 0 ∧ (envWaitEintr.epoll_wait 0).errno = EINTR ∧
    (envWaitEintr.epoll_wait 1).nev = 1 ∧
    event_loop envWaitEintr 8 4 1 8 State.init =
      (.ret (-1), ⟨[Call.epoll_wait 4 MAX_EV (-1)], 0, 0, 1⟩) := by
  decide


/-- When the loop body leaves the loop with a return value, that value is `-1`. -/
theorem dispatch_event_ret (env : Env) (afuel : Nat) (ep n : Int) (ev : EpollEvent)
    (st st' : State) (r : Int)
    (h : dispatch_event env afuel ep n ev st = (some (.ret r), st')) : r = -1 := by
  unfold dispatch_event at h
  cases hc : classify n ev.fd
  · rw [hc] at h
    rcases ha : handle_accept env afuel ep ev st with ⟨o, st1⟩
    rw [ha] at h
    cases o with
    | ret x =>
      simp only at h
      split_ifs at h
      · simp only [Prod.mk.injEq, Option.some.injEq, Outcome.ret.injEq] at h
        exact h.1.symm
      · simp at h
    | abort => simp at h
    | more => simp at h
  · rw [hc] at h
    simp only at h
    split_ifs at h
    · simp only [Prod.mk.injEq, Option.some.injEq, Outcome.ret.injEq] at h
      exact h.1.symm
    · simp at h

theorem event_loop_for_ret (env : Env) (afuel : Nat) (ep n : Int) (buf : List EpollEvent) :
    ∀ (is : List Nat) (st st' : State) (r : Int),
      event_loop_for env afuel ep n buf is st = (some (.ret r), st') → r = -1 := by
  intro is
  induction is with
  | nil =>
    intro st st' r h
    simp [event_loop_for] at h
  | cons i rest ih =>
    intro st st' r h
    unfold event_loop_for at h
    split at h
    · exact ih _ _ _ h
    · rename_i o st1 hd
      simp only [Prod.mk.injEq, Option.some.injEq] at h
      rw [h.1] at hd
      exact dispatch_event_ret env afuel ep n _ _ _ r hd

/-- Whenever `event_loop` returns, it returns `-1`: the function has no path
that assigns another value to `r`. -/
theorem event_loop_ret (env : Env) (afuel : Nat) (ep n : Int) :
    ∀ (fuel : Nat) (st st' : State) (r : Int),
      event_loop env afuel ep n fuel st = (.ret r, st') → r = -1 := by
  intro fuel
  induction fuel with
  | zero =>
    intro st st' r h
    simp [event_loop] at h
  | succ f ih =>
    intro st st' r h
    unfold event_loop at h
    simp only at h
    by_cases h0 : (epoll_wait env ep MAX_EV (-1) st).1.nev = 0
    · simp [h0] at h
    · rw [if_neg h0] at h
      by_cases h1 : (epoll_wait env ep MAX_EV (-1) st).1.nev < 0
      · rw [if_pos h1] at h
        split_ifs at h
        · omega
        · simp only [Prod.mk.injEq, Outcome.ret.injEq] at h
          exact h.1.symm
        · simp only [Prod.mk.injEq, Outcome.ret.injEq] at h
          exact h.1.symm
      · rw [if_neg h1] at h
        rcases hfor : event_loop_for env afuel ep n (epoll_wait env ep MAX_EV (-1) st).1.events
          (List.range (epoll_wait env ep MAX_EV (-1) st).1.nev.toNat)
          (epoll_wait env ep MAX_EV (-1) st).2 with ⟨_ | o, st1⟩
        · rw [hfor] at h
          simp only at h
          rw [if_pos (by omega)] at h
          exact ih _ _ _ h
        · rw [hfor] at h
          simp only [Prod.mk.injEq] at h
          rw [h.1] at hfor
          exact event_loop_for_ret env afuel ep n _ _ _ _ r hfor

/-! ## `main` and the exit status -/

/-- C4: the code reports success after a fatal loop error.  With one valid
listener, set-up succeeds; the first `epoll_wait` fails with `EBADF`, so
`event_loop` logs the failure and returns `-1`; `main` discards that value and
returns `EXIT_SUCCESS`. -/
theorem main_success_after_wait_failure :
    (envOk.epoll_wait 0).nev < 0 ∧ (envOk.epoll_wait 0).errno ≠ EINTR ∧
    (event_loop envOk 1 4 1 1
      ((setup_sockets envOk 1 (State.init.call (.sd_listen_fds 1))).2.call
        (.sd_notify 0 READY))).1 = .ret (-1) ∧
    main envOk 1 1 =
      (.ret EXIT_SUCCESS,
       ⟨[Call.sd_listen_fds 1, Call.epoll_create1 0,
         Call.sd_is_socket 3 AF_UNSPEC SOCK_STREAM 0, Call.fcntl_getfl 3,
         Call.fcntl_setfl 3 2050,
         Call.epoll_ctl 4 EPOLL_CTL_ADD 3 (some ⟨EPOLLIN ||| EPOLLET, 3⟩),
         Call.sd_notify 0 READY, Call.epoll_wait 4 MAX_EV (-1),
         Call.stderr .wait_failed], 1, 0, 1⟩) := by
  decide

/-- C5: the code accepts a descriptor that is not a socket.  With one inherited
descriptor that is not a socket, `sd_is_socket(fd, AF_UNSPEC, SOCK_STREAM, 0)`
is `0`, which the test `s != 0` lets through: `setup_sockets` returns the epoll
handle `4` and `main` announces readiness. -/
theorem setup_accepts_non_socket :
    envNonSocket.fdkind 3 = .nonSocket ∧
    sd_is_socket_result (envNonSocket.fdkind 3) AF_UNSPEC SOCK_STREAM 0 = 0 ∧
    (setup_sockets envNonSocket 1 (State.init.call (.sd_listen_fds 1))).1 = 4 ∧
    Call.sd_notify 0 READY ∈ (main envNonSocket 1 1).2.trace := by
  decide


/-! ## `setup_sockets` -/

/-- For a listening stream socket of any family, the call of line 52 gives `0`. -/
theorem sd_is_socket_result_listening (fam : Int) :
    sd_is_socket_result (.socket fam SOCK_STREAM true) AF_UNSPEC SOCK_STREAM 0 = 0 := by
  simp [sd_is_socket_result, SOCK_STREAM, AF_UNSPEC]

/-- The function `set_nonblock` returns `0` exactly on the path where both `fcntl` calls
succeed, and then it has issued exactly those two calls. -/
theorem set_nonblock_zero (env : Env) (fd : Int) (st : State)
    (h : (set_nonblock env fd st).1 = 0) :
    0 ≤ env.fcntl_getfl fd ∧
    env.fcntl_setfl fd (Int.lor (env.fcntl_getfl fd) O_NONBLOCK) = 0 ∧
    (set_nonblock env fd st).2 =
      ⟨st.trace ++ [Call.fcntl_getfl fd,
          Call.fcntl_setfl fd (Int.lor (env.fcntl_getfl fd) O_NONBLOCK)],
        st.nCtl, st.nAccept, st.nWait⟩ := by
  unfold set_nonblock at h ⊢
  simp only at h ⊢
  split_ifs at h ⊢ with h1 h2
  · simp only at h; omega
  · exact absurd h h2
  · exact ⟨by omega, by simpa using h2, by simp [State.call]⟩

theorem set_nonblock_ok (env : Env) (fd : Int) (st : State)
    (hget : 0 ≤ env.fcntl_getfl fd)
    (hset : env.fcntl_setfl fd (Int.lor (env.fcntl_getfl fd) O_NONBLOCK) = 0) :
    (set_nonblock env fd st).1 = 0 := by
  unfold set_nonblock
  simp only
  rw [if_neg (by omega), if_neg (by simpa using hset)]
  exact hset

/-- When the `for` loop of `setup_sockets` runs to its end, it has issued the
four registration calls for each index, in order, and nothing else. -/
theorem setup_sockets_for_true (env : Env) (ep : Int) :
    ∀ (is : List Nat) (st st' : State),
      setup_sockets_for env ep is st = (true, st') →
      st' = ⟨st.trace ++ is.flatMap (register_calls env ep),
             st.nCtl + is.length, st.nAccept, st.nWait⟩ := by
  intro is
  induction is with
  | nil =>
    intro st st' h
    simp only [setup_sockets_for, Prod.mk.injEq, true_and] at h
    subst h
    simp
  | cons i rest ih =>
    intro st st' h
    unfold setup_sockets_for at h
    simp only [sd_is_socket] at h
    split_ifs at h with h1 h2 h3 h4
    · simp at h
    · simp at h
    · simp at h
    · simp at h
    · have hz := set_nonblock_zero env _ _ (not_not.mp h3)
      have := ih _ _ h
      rw [this]
      simp only [epoll_ctl, hz.2.2]
      simp [register_calls, State.call, Nat.add_assoc, Nat.add_comm 1 rest.length]

/-- When every index passes every step, the `for` loop of `setup_sockets` runs
to its end. -/
theorem setup_sockets_for_ok (env : Env) (ep : Int) :
    ∀ (is : List Nat) (st : State),
      (∀ i ∈ is, sd_is_socket_result (env.fdkind (SD_LISTEN_FDS_START + (i : Int)))
          AF_UNSPEC SOCK_STREAM 0 = 0) →
      (∀ i ∈ is, 0 ≤ env.fcntl_getfl (SD_LISTEN_FDS_START + (i : Int))) →
      (∀ i ∈ is, env.fcntl_setfl (SD_LISTEN_FDS_START + (i : Int))
          (Int.lor (env.fcntl_getfl (SD_LISTEN_FDS_START + (i : Int))) O_NONBLOCK) = 0) →
      (∀ j, j < is.length → env.epoll_ctl (st.nCtl + j) = 0) →
      (setup_sockets_for env ep is st).1 = true := by
  intro is
  induction is with
  | nil =>
    intro st _ _ _ _
    rfl
  | cons i rest ih =>
    intro st hk hg hs hc
    have hk0 := hk i (List.mem_cons_self _ _)
    have hnb := set_nonblock_ok env _
      (st.call (.sd_is_socket (SD_LISTEN_FDS_START + (i : Int)) AF_UNSPEC SOCK_STREAM 0))
      (hg i (List.mem_cons_self _ _)) (hs i (List.mem_cons_self _ _))
    have hz := set_nonblock_zero env _ _ hnb
    have hc0 : env.epoll_ctl st.nCtl = 0 := by simpa using hc 0 (by simp)
    have hc1 : env.epoll_ctl (set_nonblock env (SD_LISTEN_FDS_START + (i : Int))
        (st.call (.sd_is_socket (SD_LISTEN_FDS_START + (i : Int)) AF_UNSPEC SOCK_STREAM 0))).2.nCtl
        = 0 := by
      rw [hz.2.2]
      simpa [State.call] using hc0
    unfold setup_sockets_for
    simp only [sd_is_socket, hk0, lt_self_iff_false, if_false, ne_eq, not_true_eq_false, hnb,
      epoll_ctl, hc1]
    apply ih
    · exact fun j hj => hk j (List.mem_cons_of_mem _ hj)
    · exact fun j hj => hg j (List.mem_cons_of_mem _ hj)
    · exact fun j hj => hs j (List.mem_cons_of_mem _ hj)
    · intro j hj
      have := hc (j + 1) (by simpa using hj)
      simp only [hz.2.2]
      simpa [State.call, Nat.add_assoc, Nat.add_comm 1 j] using this

/-- A non-negative result of `setup_sockets` is the epoll handle, and the calls
issued are `epoll_create1` followed by the registration calls of all indices
`0 .. n-1` in increasing order. -/
theorem setup_sockets_nonneg (env : Env) (n : Int) (st : State)
    (h : 0 ≤ (setup_sockets env n st).1) :
    setup_sockets env n st =
      (env.epoll_create1,
       ⟨st.trace ++ [Call.epoll_create1 0]
          ++ (List.range n.toNat).flatMap (register_calls env env.epoll_create1),
        st.nCtl + n.toNat, st.nAccept, st.nWait⟩) := by
  unfold setup_sockets at h ⊢
  simp only at h ⊢
  split_ifs at h ⊢ with hep
  · simp at h
  · rcases hfor : setup_sockets_for env env.epoll_create1 (List.range n.toNat)
      (st.call (.epoll_create1 0)) with ⟨b, st2⟩
    rw [hfor] at h
    cases b with
    | false => simp at h
    | true =>
      have := setup_sockets_for_true env _ _ _ _ hfor
      simp only [this]
      simp [State.call]


/-- When the `for` loop of `setup_sockets` runs to its end, every step of every
iteration succeeded: for the index at position `j`, `sd_is_socket` returned
`0`, `F_GETFL` was non-negative, `F_SETFL` returned `0`, and the `epoll_ctl`
call, result `st.nCtl + j` of the stream, returned `0`. -/
theorem setup_sockets_for_true_steps (env : Env) (ep : Int) :
    ∀ (is : List Nat) (st st' : State),
      setup_sockets_for env ep is st = (true, st') →
      ∀ j, j < is.length →
        sd_is_socket_result (env.fdkind (SD_LISTEN_FDS_START + ((is.getD j 0 : Nat) : Int)))
          AF_UNSPEC SOCK_STREAM 0 = 0 ∧
        0 ≤ env.fcntl_getfl (SD_LISTEN_FDS_START + ((is.getD j 0 : Nat) : Int)) ∧
        env.fcntl_setfl (SD_LISTEN_FDS_START + ((is.getD j 0 : Nat) : Int))
          (Int.lor (env.fcntl_getfl (SD_LISTEN_FDS_START + ((is.getD j 0 : Nat) : Int)))
            O_NONBLOCK) = 0 ∧
        env.epoll_ctl (st.nCtl + j) = 0 := by
  intro is
  induction is with
  | nil =>
    intro st st' _ j hj
    simp at hj
  | cons i rest ih =>
    intro st st' h j hj
    unfold setup_sockets_for at h
    simp only [sd_is_socket] at h
    split_ifs at h with h1 h2 h3 h4
    · simp at h
    · simp at h
    · simp at h
    · simp at h
    · have hz := set_nonblock_zero env _ _ (not_not.mp h3)
      have hc : env.epoll_ctl st.nCtl = 0 := by
        have := not_not.mp h4
        simp only [epoll_ctl, hz.2.2] at this
        simpa [State.call] using this
      cases j with
      | zero =>
        simp only [List.getD_cons_zero, Nat.add_zero]
        exact ⟨not_not.mp h2, hz.1, hz.2.1, hc⟩
      | succ j =>
        have := ih _ _ h j (by simpa using hj)
        simp only [epoll_ctl, hz.2.2] at this
        simp only [List.getD_cons_succ]
        refine ⟨this.1, this.2.1, this.2.2.1, ?_⟩
        simpa [State.call, Nat.add_assoc, Nat.add_comm 1 j] using this.2.2.2

/-- Reading position `j` of `List.range m`. -/
theorem getD_range (m j : Nat) (h : j < m) : (List.range m).getD j 0 = j := by
  rw [List.getD_eq_getElem?_getD, List.getElem?_range h]
  rfl

/-- The function `setup_sockets` returns a negative value exactly when a set-up
step fails: `epoll_create1` is negative, or for some index `i` below `n` the
`sd_is_socket` result is not `0`, `F_GETFL` is negative, `F_SETFL` is not `0`,
or the `epoll_ctl` result is not `0`. -/
theorem setup_sockets_neg_iff (env : Env) (n : Int) (st : State) :
    (setup_sockets env n st).1 < 0 ↔
      (env.epoll_create1 < 0 ∨
        ∃ i : Nat, (i : Int) < n ∧
          (sd_is_socket_result (env.fdkind (SD_LISTEN_FDS_START + (i : Int)))
              AF_UNSPEC SOCK_STREAM 0 ≠ 0 ∨
            env.fcntl_getfl (SD_LISTEN_FDS_START + (i : Int)) < 0 ∨
            env.fcntl_setfl (SD_LISTEN_FDS_START + (i : Int))
              (Int.lor (env.fcntl_getfl (SD_LISTEN_FDS_START + (i : Int))) O_NONBLOCK) ≠ 0 ∨
            env.epoll_ctl (st.nCtl + i) ≠ 0)) := by
  constructor
  · intro hneg
    by_contra hno
    simp only [not_or, not_exists, not_and, not_lt, ne_eq, not_not] at hno
    obtain ⟨hep, hall⟩ := hno
    have hlt : ∀ i, i ∈ List.range n.toNat → (i : Int) < n := by
      intro i hi
      have := List.mem_range.1 hi
      omega
    have htrue := setup_sockets_for_ok env env.epoll_create1 (List.range n.toNat)
      (st.call (.epoll_create1 0))
      (fun i hi => (hall i (hlt i hi)).1)
      (fun i hi => (hall i (hlt i hi)).2.1)
      (fun i hi => (hall i (hlt i hi)).2.2.1)
      (fun j hj => by
        have hj' : j < n.toNat := by simpa using hj
        exact (hall j (by omega)).2.2.2)
    unfold setup_sockets at hneg
    simp only at hneg
    rw [if_neg (by omega)] at hneg
    rcases hfor : setup_sockets_for env env.epoll_create1 (List.range n.toNat)
      (st.call (.epoll_create1 0)) with ⟨b, st2⟩
    rw [hfor] at htrue hneg
    simp only at htrue
    subst htrue
    simp only at hneg
    omega
  · intro hfail
    by_contra hnn
    have hok : 0 ≤ (setup_sockets env n st).1 := by omega
    have heq := setup_sockets_nonneg env n st hok
    have hep : 0 ≤ env.epoll_create1 := by
      rw [heq] at hok
      exact hok
    rcases hfail with h | ⟨i, hi, hstep⟩
    · omega
    · have hin : i < (List.range n.toNat).length := by
        rw [List.length_range]
        omega
      unfold setup_sockets at heq
      simp only at heq
      rw [if_neg (by omega)] at heq
      rcases hfor : setup_sockets_for env env.epoll_create1 (List.range n.toNat)
        (st.call (.epoll_create1 0)) with ⟨b, st2⟩
      rw [hfor] at heq
      cases b with
      | false =>
        simp only [Prod.mk.injEq] at heq
        omega
      | true =>
        have hs := setup_sockets_for_true_steps env _ _ _ _ hfor i hin
        rw [getD_range _ _ (by simpa using hin)] at hs
        rcases hstep with h | h | h | h
        · exact h hs.1
        · omega
        · exact h hs.2.2.1
        · exact h (by simpa [State.call] using hs.2.2.2)

/-- The registration calls of a list of indices hold one `epoll_ctl` each. -/
theorem register_calls_count (env : Env) (ep : Int) (is : List Nat) :
    (is.flatMap (register_calls env ep)).countP Call.isCtl = is.length := by
  induction is with
  | nil => rfl
  | cons i rest ih =>
    rw [List.flatMap_cons, List.countP_append, ih]
    simp [register_calls, List.countP_cons, Call.isCtl]
    omega

/-- C6: if `epoll_create1` succeeds, every descriptor `SD_LISTEN_FDS_START + i`
(`0 <= i < n`) is a listening stream socket, and both `fcntl` calls and the
`epoll_ctl` call succeed for each of them, then `setup_sockets` returns the
epoll handle and has issued, after `epoll_create1`, for each `i` in increasing
order: the `sd_is_socket` check, `F_GETFL`, `F_SETFL` with `O_NONBLOCK` or-ed
in, and then one `EPOLL_CTL_ADD` with mask `EPOLLIN | EPOLLET` and `data.fd`
equal to the descriptor; exactly `n` registrations and no other call. -/
theorem setup_sockets_registers_all (env : Env) (n : Int) (st : State)
    (hn : 1 ≤ n)
    (hep : 0 ≤ env.epoll_create1)
    (hkind : ∀ i : Nat, (i : Int) < n →
      ∃ fam, env.fdkind (SD_LISTEN_FDS_START + (i : Int)) = .socket fam SOCK_STREAM true)
    (hget : ∀ i : Nat, (i : Int) < n → 0 ≤ env.fcntl_getfl (SD_LISTEN_FDS_START + (i : Int)))
    (hset : ∀ i : Nat, (i : Int) < n →
      env.fcntl_setfl (SD_LISTEN_FDS_START + (i : Int))
        (Int.lor (env.fcntl_getfl (SD_LISTEN_FDS_START + (i : Int))) O_NONBLOCK) = 0)
    (hctl : ∀ i : Nat, (i : Int) < n → env.epoll_ctl (st.nCtl + i) = 0) :
    setup_sockets env n st =
      (env.epoll_create1,
       ⟨st.trace ++ [Call.epoll_create1 0]
          ++ (List.range n.toNat).flatMap (register_calls env env.epoll_create1),
        st.nCtl + n.toNat, st.nAccept, st.nWait⟩) ∧
    ((List.range n.toNat).flatMap (register_calls env env.epoll_create1)).countP Call.isCtl
      = n.toNat := by
  have hlt : ∀ i, i ∈ List.range n.toNat → (i : Int) < n := by
    intro i hi
    have := List.mem_range.1 hi
    omega
  have htrue := setup_sockets_for_ok env env.epoll_create1 (List.range n.toNat)
    (st.call (.epoll_create1 0))
    (fun i hi => by
      obtain ⟨fam, hf⟩ := hkind i (hlt i hi)
      rw [hf]
      exact sd_is_socket_result_listening fam)
    (fun i hi => hget i (hlt i hi))
    (fun i hi => hset i (hlt i hi))
    (fun j hj => by
      have hj' : j < n.toNat := by simpa using hj
      exact hctl j (by omega))
  constructor
  · apply setup_sockets_nonneg
    unfold setup_sockets
    simp only
    rw [if_neg (by omega)]
    rcases hfor : setup_sockets_for env env.epoll_create1 (List.range n.toNat)
      (st.call (.epoll_create1 0)) with ⟨b, st2⟩
    rw [hfor] at htrue
    simp only at htrue
    subst htrue
    exact hep
  · rw [register_calls_count, List.length_range]

/-- Witness for C6: two valid listening sockets on descriptors 3 and 4. -/
theorem setup_sockets_registers_all_witness :
    setup_sockets envTwoListeners 2 State.init =
      (4,
       ⟨[Call.epoll_create1 0] ++
          [Call.sd_is_socket 3 AF_UNSPEC SOCK_STREAM 0, Call.fcntl_getfl 3,
           Call.fcntl_setfl 3 2050,
           Call.epoll_ctl 4 EPOLL_CTL_ADD 3 (some ⟨EPOLLIN ||| EPOLLET, 3⟩),
           Call.sd_is_socket 4 AF_UNSPEC SOCK_STREAM 0, Call.fcntl_getfl 4,
           Call.fcntl_setfl 4 2050,
           Call.epoll_ctl 4 EPOLL_CTL_ADD 4 (some ⟨EPOLLIN ||| EPOLLET, 4⟩)],
        2, 0, 0⟩) :=
  (setup_sockets_registers_all envTwoListeners 2 State.init (by decide) (by decide)
    (fun _ _ => ⟨2, rfl⟩) (fun _ _ => (by decide : (0 : Int) ≤ 2)) (fun _ _ => rfl) (fun _ _ => rfl)).1


/-! ## Which calls each function can add to the trace -/

theorem Extends.refl (P : Call → Prop) (st : State) : Extends P st st :=
  ⟨[], by simp, by simp⟩

theorem Extends.trans {P : Call → Prop} {a b c : State}
    (h1 : Extends P a b) (h2 : Extends P b c) : Extends P a c := by
  obtain ⟨e1, t1, p1⟩ := h1
  obtain ⟨e2, t2, p2⟩ := h2
  refine ⟨e1 ++ e2, by rw [t2, t1, List.append_assoc], ?_⟩
  intro x hx
  rcases List.mem_append.1 hx with h | h
  · exact p1 x h
  · exact p2 x h

theorem Extends.one {P : Call → Prop} {st st' : State} (c : Call)
    (ht : st'.trace = st.trace ++ [c]) (hc : P c) : Extends P st st' :=
  ⟨[c], ht, by simpa using hc⟩

theorem Extends.log {P : Call → Prop} (st : State) (d : Diag) (hd : P (.stderr d)) :
    Extends P st (st.log d) :=
  Extends.one (.stderr d) rfl hd

theorem set_nonblock_extends (env : Env) (fd : Int) (st : State) :
    Extends SetupCall st (set_nonblock env fd st).2 := by
  unfold set_nonblock
  simp only
  split_ifs
  · exact (Extends.one (.fcntl_getfl fd) rfl ⟨rfl, rfl⟩).trans (Extends.log _ _ ⟨rfl, rfl⟩)
  · exact ((Extends.one (.fcntl_getfl fd) rfl ⟨rfl, rfl⟩).trans
      (Extends.one (.fcntl_setfl fd _) rfl ⟨rfl, rfl⟩)).trans (Extends.log _ _ ⟨rfl, rfl⟩)
  · exact (Extends.one (.fcntl_getfl fd) rfl ⟨rfl, rfl⟩).trans
      (Extends.one (.fcntl_setfl fd _) rfl ⟨rfl, rfl⟩)

theorem setup_sockets_for_extends (env : Env) (ep : Int) :
    ∀ (is : List Nat) (st : State), Extends SetupCall st (setup_sockets_for env ep is st).2 := by
  intro is
  induction is with
  | nil => exact fun st => Extends.refl _ st
  | cons i rest ih =>
    intro st
    have e1 : Extends SetupCall st
        (st.call (.sd_is_socket (SD_LISTEN_FDS_START + (i : Int)) AF_UNSPEC SOCK_STREAM 0)) :=
      Extends.one _ rfl ⟨rfl, rfl⟩
    have e2 := e1.trans (set_nonblock_extends env (SD_LISTEN_FDS_START + (i : Int)) _)
    unfold setup_sockets_for
    simp only [sd_is_socket]
    split_ifs
    · exact e1.trans (Extends.log _ _ ⟨rfl, rfl⟩)
    · exact e1.trans (Extends.log _ _ ⟨rfl, rfl⟩)
    · exact e2.trans (Extends.log _ _ ⟨rfl, rfl⟩)
    · exact (e2.trans (Extends.one (.epoll_ctl ep EPOLL_CTL_ADD _ _) rfl ⟨rfl, rfl⟩)).trans
        (Extends.log _ _ ⟨rfl, rfl⟩)
    · exact (e2.trans (Extends.one (.epoll_ctl ep EPOLL_CTL_ADD _ _) rfl ⟨rfl, rfl⟩)).trans
        (ih _)

theorem setup_sockets_extends (env : Env) (n : Int) (st : State) :
    Extends SetupCall st (setup_sockets env n st).2 := by
  have e1 : Extends SetupCall st (st.call (.epoll_create1 0)) := Extends.one _ rfl ⟨rfl, rfl⟩
  have e2 := e1.trans (setup_sockets_for_extends env env.epoll_create1 (List.range n.toNat) _)
  unfold setup_sockets
  simp only
  split_ifs
  · exact e1.trans (Extends.log _ _ ⟨rfl, rfl⟩)
  · rcases hfor : setup_sockets_for env env.epoll_create1 (List.range n.toNat)
      (st.call (.epoll_create1 0)) with ⟨b, st2⟩
    rw [hfor] at e2
    cases b <;> exact e2

theorem handle_accept_loop_extends (env : Env) (ep : Int) (ev : EpollEvent) :
    ∀ (fuel : Nat) (st : State), Extends LoopCall st (handle_accept_loop env ep ev fuel st).2 := by
  intro fuel
  induction fuel with
  | zero => exact fun st => Extends.refl _ st
  | succ f ih =>
    intro st
    have e1 : Extends LoopCall st (accept4 env ev.fd SOCK_NONBLOCK st).2 :=
      Extends.one (.accept4 ev.fd SOCK_NONBLOCK) rfl rfl
    have e2 : Extends LoopCall st (epoll_ctl env ep EPOLL_CTL_ADD (env.accept4 st.nAccept).ret
        (some ⟨EPOLLIN ||| EPOLLET, (env.accept4 st.nAccept).ret⟩)
        (accept4 env ev.fd SOCK_NONBLOCK st).2).2 :=
      e1.trans (Extends.one (.epoll_ctl ep EPOLL_CTL_ADD _ _) rfl rfl)
    unfold handle_accept_loop
    simp only
    split_ifs
    · exact e1.trans (ih _)
    · exact e1
    · exact e1
    · exact e1.trans (Extends.log _ _ rfl)
    · exact e2.trans (Extends.log _ _ rfl)
    · exact e2.trans (ih _)
    · exact e2

theorem handle_accept_extends (env : Env) (fuel : Nat) (ep : Int) (ev : EpollEvent)
    (st : State) : Extends LoopCall st (handle_accept env fuel ep ev st).2 := by
  unfold handle_accept
  split_ifs
  · exact Extends.log _ _ rfl
  · exact handle_accept_loop_extends env ep ev fuel st

theorem handle_read_extends (env : Env) (ep : Int) (ev : EpollEvent) (st : State) :
    Extends LoopCall st (handle_read env ep ev st).2 := by
  have e1 : Extends LoopCall st (epoll_ctl env ep EPOLL_CTL_DEL ev.fd none st).2 :=
    Extends.one (.epoll_ctl ep EPOLL_CTL_DEL ev.fd none) rfl rfl
  unfold handle_read
  simp only
  split_ifs
  · exact e1.trans (Extends.log _ _ rfl)
  · exact e1
  · exact Extends.refl _ st

theorem dispatch_event_extends (env : Env) (afuel : Nat) (ep n : Int) (ev : EpollEvent)
    (st : State) : Extends LoopCall st (dispatch_event env afuel ep n ev st).2 := by
  unfold dispatch_event
  cases classify n ev.fd
  · have ea := handle_accept_extends env afuel ep ev st
    rcases ha : handle_accept env afuel ep ev st with ⟨o, st1⟩
    rw [ha] at ea
    cases o with
    | ret x =>
      simp only
      split_ifs
      · exact ea.trans (Extends.log _ _ rfl)
      · exact ea
    | abort => exact ea
    | more => exact ea
  · simp only
    split_ifs
    · exact (handle_read_extends env ep ev st).trans (Extends.log _ _ rfl)
    · exact handle_read_extends env ep ev st

theorem event_loop_for_extends (env : Env) (afuel : Nat) (ep n : Int) (buf : List EpollEvent) :
    ∀ (is : List Nat) (st : State),
      Extends LoopCall st (event_loop_for env afuel ep n buf is st).2 := by
  intro is
  induction is with
  | nil => exact fun st => Extends.refl _ st
  | cons i rest ih =>
    intro st
    have ed := dispatch_event_extends env afuel ep n (buf.getD i ⟨0, 0⟩) st
    unfold event_loop_for
    rcases hd : dispatch_event env afuel ep n (buf.getD i ⟨0, 0⟩) st with ⟨_ | o, st1⟩
    · rw [hd] at ed
      exact ed.trans (ih _)
    · rw [hd] at ed
      exact ed

theorem event_loop_extends (env : Env) (afuel : Nat) (ep n : Int) :
    ∀ (fuel : Nat) (st : State), Extends LoopCall st (event_loop env afuel ep n fuel st).2 := by
  intro fuel
  induction fuel with
  | zero => exact fun st => Extends.refl _ st
  | succ f ih =>
    intro st
    have e1 : Extends LoopCall st (epoll_wait env ep MAX_EV (-1) st).2 :=
      Extends.one (.epoll_wait ep MAX_EV (-1)) rfl rfl
    have e2 := e1.trans (event_loop_for_extends env afuel ep n
      (epoll_wait env ep MAX_EV (-1) st).1.events
      (List.range (epoll_wait env ep MAX_EV (-1) st).1.nev.toNat) _)
    unfold event_loop
    simp only
    by_cases h0 : (epoll_wait env ep MAX_EV (-1) st).1.nev = 0
    · rw [if_pos h0]
      exact e1
    · rw [if_neg h0]
      by_cases h1 : (epoll_wait env ep MAX_EV (-1) st).1.nev < 0
      · rw [if_pos h1]
        split_ifs
        · exact e1.trans (ih _)
        · exact e1
        · exact e1.trans (Extends.log _ _ rfl)
      · rw [if_neg h1]
        rcases hfor : event_loop_for env afuel ep n (epoll_wait env ep MAX_EV (-1) st).1.events
          (List.range (epoll_wait env ep MAX_EV (-1) st).1.nev.toNat)
          (epoll_wait env ep MAX_EV (-1) st).2 with ⟨_ | o, st1⟩
        · rw [hfor] at e2
          simp only
          split_ifs
          · exact e2.trans (ih _)
          · exact e2
        · rw [hfor] at e2
          exact e2


/-! ## `main` -/

theorem main_of_neg (env : Env) (afuel fuel : Nat) (h : env.sd_listen_fds < 0) :
    main env afuel fuel =
      (.ret EXIT_FAILURE,
       ⟨[Call.sd_listen_fds 1, Call.stderr .sd_listen_fds_failed], 0, 0, 0⟩) := by
  unfold main
  simp only
  rw [if_pos h]
  rfl

theorem main_of_zero (env : Env) (afuel fuel : Nat) (h : env.sd_listen_fds = 0) :
    main env afuel fuel =
      (.ret EXIT_FAILURE,
       ⟨[Call.sd_listen_fds 1, Call.stderr .no_listening_sockets], 0, 0, 0⟩) := by
  unfold main
  simp only
  rw [if_neg (by omega), if_pos h]
  rfl

theorem main_of_setup_failed (env : Env) (afuel fuel : Nat) (hn : 0 < env.sd_listen_fds)
    (h : (setup_sockets env env.sd_listen_fds (State.init.call (.sd_listen_fds 1))).1 < 0) :
    main env afuel fuel =
      (.ret EXIT_FAILURE,
       (setup_sockets env env.sd_listen_fds (State.init.call (.sd_listen_fds 1))).2.log
         .setup_failed) := by
  unfold main
  simp only
  rw [if_neg (by omega), if_neg (by omega), if_pos h]

theorem main_of_setup_ok (env : Env) (afuel fuel : Nat) (hn : 0 < env.sd_listen_fds)
    (h : 0 ≤ (setup_sockets env env.sd_listen_fds (State.init.call (.sd_listen_fds 1))).1) :
    (main env afuel fuel).2 =
      (event_loop env afuel
        (setup_sockets env env.sd_listen_fds (State.init.call (.sd_listen_fds 1))).1
        env.sd_listen_fds fuel
        ((setup_sockets env env.sd_listen_fds (State.init.call (.sd_listen_fds 1))).2.call
          (.sd_notify 0 READY))).2 := by
  unfold main
  simp only
  rw [if_neg (by omega), if_neg (by omega), if_neg (by omega)]
  rcases event_loop env afuel
        (setup_sockets env env.sd_listen_fds (State.init.call (.sd_listen_fds 1))).1
        env.sd_listen_fds fuel
        ((setup_sockets env env.sd_listen_fds (State.init.call (.sd_listen_fds 1))).2.call
          (.sd_notify 0 READY)) with ⟨o, st4⟩
  cases o <;> rfl

/-- The trace of a run of `main`, by cases on how set-up went: either set-up
failed and the trace holds no `sd_notify` and no `epoll_wait`, or it succeeded
and the trace is the set-up calls, then `sd_notify`, then calls of the loop. -/
theorem main_trace_cases (env : Env) (afuel fuel : Nat) :
    ((env.sd_listen_fds ≤ 0 ∨
        (setup_sockets env env.sd_listen_fds (State.init.call (.sd_listen_fds 1))).1 < 0) ∧
      (main env afuel fuel).1 = .ret EXIT_FAILURE ∧
      ∀ c ∈ (main env afuel fuel).2.trace, SetupCall c) ∨
    (0 < env.sd_listen_fds ∧
      0 ≤ (setup_sockets env env.sd_listen_fds (State.init.call (.sd_listen_fds 1))).1 ∧
      (∀ c ∈ (setup_sockets env env.sd_listen_fds
          (State.init.call (.sd_listen_fds 1))).2.trace, SetupCall c) ∧
      ∃ loop,
        (main env afuel fuel).2.trace =
          (setup_sockets env env.sd_listen_fds (State.init.call (.sd_listen_fds 1))).2.trace
            ++ Call.sd_notify 0 READY :: loop ∧
        ∀ c ∈ loop, LoopCall c) := by
  have hs : ∀ c ∈ (setup_sockets env env.sd_listen_fds
      (State.init.call (.sd_listen_fds 1))).2.trace, SetupCall c := by
    obtain ⟨ext, ht, hp⟩ := setup_sockets_extends env env.sd_listen_fds
      (State.init.call (.sd_listen_fds 1))
    intro c hc
    rw [ht] at hc
    rcases List.mem_append.1 hc with h | h
    · have : c = .sd_listen_fds 1 := by simpa [State.call, State.init] using h
      subst this
      exact ⟨rfl, rfl⟩
    · exact hp c h
  by_cases hneg : env.sd_listen_fds < 0
  · left
    rw [main_of_neg env afuel fuel hneg]
    refine ⟨Or.inl (by omega), rfl, ?_⟩
    intro c hc
    simp only [List.mem_cons, List.mem_singleton, List.not_mem_nil, or_false] at hc
    rcases hc with rfl | rfl <;> exact ⟨rfl, rfl⟩
  by_cases hzero : env.sd_listen_fds = 0
  · left
    rw [main_of_zero env afuel fuel hzero]
    refine ⟨Or.inl (by omega), rfl, ?_⟩
    intro c hc
    simp only [List.mem_cons, List.mem_singleton, List.not_mem_nil, or_false] at hc
    rcases hc with rfl | rfl <;> exact ⟨rfl, rfl⟩
  have hpos : 0 < env.sd_listen_fds := by omega
  by_cases hfail :
      (setup_sockets env env.sd_listen_fds (State.init.call (.sd_listen_fds 1))).1 < 0
  · left
    rw [main_of_setup_failed env afuel fuel hpos hfail]
    refine ⟨Or.inr hfail, rfl, ?_⟩
    intro c hc
    simp only [State.log, State.call, List.mem_append, List.mem_singleton] at hc
    rcases hc with h | rfl
    · exact hs c h
    · exact ⟨rfl, rfl⟩
  · right
    have hok : 0 ≤ (setup_sockets env env.sd_listen_fds
        (State.init.call (.sd_listen_fds 1))).1 := by omega
    refine ⟨hpos, hok, hs, ?_⟩
    obtain ⟨ext, ht, hp⟩ := event_loop_extends env afuel
      (setup_sockets env env.sd_listen_fds (State.init.call (.sd_listen_fds 1))).1
      env.sd_listen_fds fuel
      ((setup_sockets env env.sd_listen_fds (State.init.call (.sd_listen_fds 1))).2.call
        (.sd_notify 0 READY))
    refine ⟨ext, ?_, hp⟩
    rw [main_of_setup_ok env afuel fuel hpos hok, ht]
    simp [State.call]


/-- C7: in every execution of `main` (for every environment and every amount
of fuel) `sd_notify` is called at most once.  If it is called, then
`sd_listen_fds` returned `n > 0`, `epoll_create1` succeeded, and for every index
`i < n` the `sd_is_socket` check passed, both `fcntl` calls succeeded and the
`EPOLL_CTL_ADD` call returned `0` (all `n` listening descriptors are
registered), `setup_sockets` returned the non-negative epoll handle, and the
trace is the set-up calls (none of them an `epoll_wait` or `sd_notify`), then
`sd_notify(0, "READY=1")`, then calls of the dispatch loop (none of them an
`sd_notify`).  When `sd_listen_fds` returns `0`, `main` only logs and returns
`EXIT_FAILURE` (no `epoll_ctl`, no `sd_notify`, no `epoll_wait`).  When
`sd_listen_fds` fails or any set-up step fails (`epoll_create1` negative, or for
some `i < n` the `sd_is_socket` result not `0`, `F_GETFL` negative, `F_SETFL`
not `0`, or `EPOLL_CTL_ADD` not `0`), `main` returns `EXIT_FAILURE` and the
trace has no `sd_notify` and no `epoll_wait`.  Conversely, when `n > 0` and no
set-up step fails, `sd_notify` is called exactly once. -/
theorem main_ready_ordering (env : Env) (afuel fuel : Nat) :
    (main env afuel fuel).2.trace.countP Call.isNotify ≤ 1 ∧
    ((∃ c ∈ (main env afuel fuel).2.trace, c.isNotify = true) →
      0 < env.sd_listen_fds ∧ 0 ≤ env.epoll_create1 ∧
      (∀ i : Nat, (i : Int) < env.sd_listen_fds →
        sd_is_socket_result (env.fdkind (SD_LISTEN_FDS_START + (i : Int)))
          AF_UNSPEC SOCK_STREAM 0 = 0 ∧
        0 ≤ env.fcntl_getfl (SD_LISTEN_FDS_START + (i : Int)) ∧
        env.fcntl_setfl (SD_LISTEN_FDS_START + (i : Int))
          (Int.lor (env.fcntl_getfl (SD_LISTEN_FDS_START + (i : Int))) O_NONBLOCK) = 0 ∧
        env.epoll_ctl i = 0) ∧
      setup_sockets env env.sd_listen_fds (State.init.call (.sd_listen_fds 1)) =
        (env.epoll_create1,
         ⟨Call.sd_listen_fds 1 :: Call.epoll_create1 0 ::
            (List.range env.sd_listen_fds.toNat).flatMap
              (register_calls env env.epoll_create1),
          env.sd_listen_fds.toNat, 0, 0⟩) ∧
      ∃ loop,
        (main env afuel fuel).2.trace =
          (Call.sd_listen_fds 1 :: Call.epoll_create1 0 ::
            (List.range env.sd_listen_fds.toNat).flatMap
              (register_calls env env.epoll_create1))
          ++ Call.sd_notify 0 READY :: loop ∧
        (∀ c ∈ Call.sd_listen_fds 1 :: Call.epoll_create1 0 ::
            (List.range env.sd_listen_fds.toNat).flatMap
              (register_calls env env.epoll_create1),
          c.isNotify = false ∧ c.isWait = false) ∧
        (∀ c ∈ loop, c.isNotify = false)) ∧
    (env.sd_listen_fds = 0 →
      main env afuel fuel =
        (.ret EXIT_FAILURE,
         ⟨[Call.sd_listen_fds 1, Call.stderr .no_listening_sockets], 0, 0, 0⟩)) ∧
    ((env.sd_listen_fds < 0 ∨ env.epoll_create1 < 0 ∨
        (∃ i : Nat, (i : Int) < env.sd_listen_fds ∧
          (sd_is_socket_result (env.fdkind (SD_LISTEN_FDS_START + (i : Int)))
              AF_UNSPEC SOCK_STREAM 0 ≠ 0 ∨
            env.fcntl_getfl (SD_LISTEN_FDS_START + (i : Int)) < 0 ∨
            env.fcntl_setfl (SD_LISTEN_FDS_START + (i : Int))
              (Int.lor (env.fcntl_getfl (SD_LISTEN_FDS_START + (i : Int))) O_NONBLOCK) ≠ 0 ∨
            env.epoll_ctl i ≠ 0)) ∨
        (setup_sockets env env.sd_listen_fds (State.init.call (.sd_listen_fds 1))).1 < 0) →
      (main env afuel fuel).1 = .ret EXIT_FAILURE ∧
      ∀ c ∈ (main env afuel fuel).2.trace, c.isNotify = false ∧ c.isWait = false) ∧
    ((0 < env.sd_listen_fds ∧ 0 ≤ env.epoll_create1 ∧
        ∀ i : Nat, (i : Int) < env.sd_listen_fds →
          sd_is_socket_result (env.fdkind (SD_LISTEN_FDS_START + (i : Int)))
            AF_UNSPEC SOCK_STREAM 0 = 0 ∧
          0 ≤ env.fcntl_getfl (SD_LISTEN_FDS_START + (i : Int)) ∧
          env.fcntl_setfl (SD_LISTEN_FDS_START + (i : Int))
            (Int.lor (env.fcntl_getfl (SD_LISTEN_FDS_START + (i : Int))) O_NONBLOCK) = 0 ∧
          env.epoll_ctl i = 0) →
      (main env afuel fuel).2.trace.countP Call.isNotify = 1) := by
  have hiff := setup_sockets_neg_iff env env.sd_listen_fds (State.init.call (.sd_listen_fds 1))
  have hn0 : (State.init.call (.sd_listen_fds 1)).nCtl = 0 := rfl
  simp only [hn0, Nat.zero_add] at hiff
  rcases main_trace_cases env afuel fuel with
    ⟨hcase, hret, hall⟩ | ⟨hpos, hok, hs, loop, ht, hl⟩
  · refine ⟨?_, ?_, main_of_zero env afuel fuel, fun _ => ⟨hret, hall⟩, ?_⟩
    · rw [List.countP_eq_zero.2 (fun c hc => by simp [(hall c hc).1])]
      omega
    · rintro ⟨c, hc, hn⟩
      rw [(hall c hc).1] at hn
      exact absurd hn (by decide)
    · rintro ⟨hpos, hep, hsteps⟩
      rcases hcase with h | h
      · omega
      · rcases hiff.1 h with h' | ⟨i, hi, h1 | h2 | h3 | h4⟩
        · omega
        · exact absurd (hsteps i hi).1 h1
        · have := (hsteps i hi).2.1
          omega
        · exact absurd (hsteps i hi).2.2.1 h3
        · exact absurd (hsteps i hi).2.2.2 h4
  · have hcount : (main env afuel fuel).2.trace.countP Call.isNotify = 1 := by
      have h1 := List.countP_eq_zero.2 (fun c hc => by simp [(hs c hc).1] :
        ∀ c ∈ (setup_sockets env env.sd_listen_fds
          (State.init.call (.sd_listen_fds 1))).2.trace, ¬ Call.isNotify c = true)
      have h2 := List.countP_eq_zero.2 (fun c hc => by
        simp [show c.isNotify = false from hl c hc] :
        ∀ c ∈ loop, ¬ Call.isNotify c = true)
      rw [ht, List.countP_append, h1, List.countP_cons, h2]
      simp [Call.isNotify]
    have hnotneg : ¬ (setup_sockets env env.sd_listen_fds
        (State.init.call (.sd_listen_fds 1))).1 < 0 := by omega
    have hsteps : ∀ i : Nat, (i : Int) < env.sd_listen_fds →
        sd_is_socket_result (env.fdkind (SD_LISTEN_FDS_START + (i : Int)))
          AF_UNSPEC SOCK_STREAM 0 = 0 ∧
        0 ≤ env.fcntl_getfl (SD_LISTEN_FDS_START + (i : Int)) ∧
        env.fcntl_setfl (SD_LISTEN_FDS_START + (i : Int))
          (Int.lor (env.fcntl_getfl (SD_LISTEN_FDS_START + (i : Int))) O_NONBLOCK) = 0 ∧
        env.epoll_ctl i = 0 := by
      have hno := mt hiff.2 hnotneg
      simp only [not_or, not_exists, not_and, not_lt, ne_eq, not_not] at hno
      exact hno.2
    have hsetup := setup_sockets_nonneg env env.sd_listen_fds
      (State.init.call (.sd_listen_fds 1)) hok
    have hsetup' : setup_sockets env env.sd_listen_fds (State.init.call (.sd_listen_fds 1)) =
        (env.epoll_create1,
         ⟨Call.sd_listen_fds 1 :: Call.epoll_create1 0 ::
            (List.range env.sd_listen_fds.toNat).flatMap
              (register_calls env env.epoll_create1),
          env.sd_listen_fds.toNat, 0, 0⟩) := by
      rw [hsetup]
      simp [State.call, State.init]
    rw [hsetup'] at ht hs hok
    simp only at ht hs hok
    refine ⟨by omega, fun _ => ⟨hpos, hok, hsteps, hsetup', loop, ht, hs, hl⟩,
      main_of_zero env afuel fuel, ?_, fun _ => hcount⟩
    rintro (h | h | h | h)
    · omega
    · omega
    · exact absurd (hiff.2 (Or.inr h)) hnotneg
    · exact absurd h hnotneg

/-- Witness for C7: with two valid listeners the announcement is made, so the
premise of the ordering clause holds, and both registrations returned `0`; when
the second registration fails, `main` returns `EXIT_FAILURE` without any
`sd_notify` or `epoll_wait`. -/
theorem main_ready_ordering_witness :
    ((∃ c ∈ (main envTwoListeners 1 1).2.trace, c.isNotify = true) ∧
      0 < envTwoListeners.sd_listen_fds ∧ 0 ≤ envTwoListeners.epoll_create1 ∧
      envTwoListeners.epoll_ctl 0 = 0 ∧ envTwoListeners.epoll_ctl 1 = 0 ∧
      (main envTwoListeners 1 1).2.trace.countP Call.isNotify ≤ 1) ∧
    (envSecondAddFails.epoll_ctl 1 ≠ 0 ∧
      (main envSecondAddFails 1 1).1 = .ret EXIT_FAILURE ∧
      ∀ c ∈ (main envSecondAddFails 1 1).2.trace, c.isNotify = false ∧ c.isWait = false) :=
  ⟨⟨⟨Call.sd_notify 0 READY, by decide, rfl⟩,
    ((main_ready_ordering envTwoListeners 1 1).2.1
      ⟨Call.sd_notify 0 READY, by decide, rfl⟩).1,
    ((main_ready_ordering envTwoListeners 1 1).2.1
      ⟨Call.sd_notify 0 READY, by decide, rfl⟩).2.1,
    (((main_ready_ordering envTwoListeners 1 1).2.1
      ⟨Call.sd_notify 0 READY, by decide, rfl⟩).2.2.1 0 (by decide)).2.2.2,
    (((main_ready_ordering envTwoListeners 1 1).2.1
      ⟨Call.sd_notify 0 READY, by decide, rfl⟩).2.2.1 1 (by decide)).2.2.2,
    (main_ready_ordering envTwoListeners 1 1).1⟩,
   ⟨by decide,
    (main_ready_ordering envSecondAddFails 1 1).2.2.2.1
      (Or.inr (Or.inr (Or.inl ⟨1, by decide, Or.inr (Or.inr (Or.inr (by decide)))⟩)))⟩⟩

end Fluxel
